import Mathlib

/-!
Shallow embedding of `src/luaclass.c` (luakit's Lua class / property-dispatch
core) and proofs about its dispatch, construction and signal protocols.

Modelling conventions:
* Lua values are `LuaValue`; tables are identified by a `Nat` id whose entries
  live in an association list inside `LuaState`.
* C pointers are `Nat`s, with `0` playing the role of `NULL`.
* Numbers are modelled as `Int` (the claims only exercise integral keys);
  Lua 5.1's number→string coercion is `toString`.
* Property callbacks (`lua_class_propfunc_t`) are opaque functions from the
  native handle pointer to the number of results they push; dispatch results
  are reified in the `Outcome` trace type so that *which* callback ran, on
  which handle, is observable.
-/

set_option autoImplicit false

namespace Luakit

/-- Runtime Lua values, restricted to what `luaclass.c` inspects.  A full
userdata carries its payload pointer and an optional metatable id. -/
inductive LuaValue where
  | nil
  | boolean (b : Bool)
  | number (n : Int)
  | str (s : String)
  | table (id : Nat)
  | func (id : Nat)
  | userdata (ptr : Nat) (mt : Option Nat)
  | lightuserdata (ptr : Nat)
deriving Repr, DecidableEq

/-- Errors raised through the Lua error path (`luaL_typerror` /
`luaL_checklstring` / `luaH_check*`): a type error naming the expected type. -/
inductive LuaErr where
  | typeError (expected : String)
deriving Repr, DecidableEq

/-- `lua_touserdata`: payload pointer for full and light userdata, NULL (0)
otherwise. -/
def lua_touserdata : LuaValue → Nat
  | .userdata p _ => p
  | .lightuserdata p => p
  | _ => 0

/-- `lua_getmetatable`: the metatable id, if any.  Only full userdata carry
metatables in this development (class handles); no claim depends on table
metatables. -/
def lua_getmetatable : LuaValue → Option Nat
  | .userdata _ mt => mt
  | _ => none

/-- A property-dispatch callback (`lua_class_propfunc_t`): given the native
handle pointer, returns the number of results it pushes. -/
abbrev PropCB := Nat → Nat

/-- `struct lua_class_property`: the three optional callbacks. -/
structure lua_class_property where
  new : Option PropCB
  index : Option PropCB
  newindex : Option PropCB

/-- `lua_class_t`, as configured by `luaH_class_setup` and
`luaH_class_add_property`.  `tag` is the id of the class metatable that setup
registered under the class pointer in `LUA_REGISTRYINDEX`; `allocator` is the
handle pointer the class's (external) allocator produces.  `properties` models
the `GTree` keyed by exact string comparison. -/
structure lua_class where
  name : String
  allocator : Nat
  properties : List (String × lua_class_property)
  index_miss_property : Option PropCB
  newindex_miss_property : Option PropCB
  tag : Nat

/-- The parts of the interpreter state `luaclass.c` reads: the table store and
the process-wide class registry `luaH_classes` in registration order. -/
structure LuaState where
  tables : List (Nat × List (LuaValue × LuaValue))
  classes : List lua_class

/-- `lua_rawget` on table `tid` (no metamethods): nil when the table or the key
is absent. -/
def table_rawget (tables : List (Nat × List (LuaValue × LuaValue)))
    (tid : Nat) (k : LuaValue) : LuaValue :=
  match tables.lookup tid with
  | none => .nil
  | some entries =>
    match entries.lookup k with
    | none => .nil
    | some v => v

/-- `luaH_toudata`: `lua_touserdata`, then—only if the value has a
metatable—compare that metatable with the class's registered one and return
NULL on mismatch.  A userdata *without* a metatable is returned unchecked,
because the C skips the comparison when `lua_getmetatable` returns 0. -/
def luaH_toudata (v : LuaValue) (cls : lua_class) : Nat :=
  let p := lua_touserdata v
  if p ≠ 0 then
    match lua_getmetatable v with
    | some mt => if mt = cls.tag then p else 0
    | none => p
  else 0

/-- `luaH_checkudata`: `luaH_toudata`, raising a type error naming the class
when it returns NULL. -/
def luaH_checkudata (v : LuaValue) (cls : lua_class) : Except LuaErr Nat :=
  let p := luaH_toudata v cls
  if p = 0 then .error (.typeError cls.name) else .ok p

/-- `luaH_class_get`: NULL unless the value is a full userdata; otherwise the
first registered class whose tag `luaH_toudata` accepts. -/
def luaH_class_get (classes : List lua_class) (v : LuaValue) : Option lua_class :=
  match v with
  | .userdata _ _ => classes.find? (fun c => luaH_toudata v c != 0)
  | _ => none

/-- `luaL_checklstring` (Lua 5.1): accepts a string; *coerces* a number to its
string image, rewriting the stack slot in place; raises a type error for every
other value. -/
def luaL_checklstring : LuaValue → Except LuaErr String
  | .str s => .ok s
  | .number n => .ok (toString n)
  | _ => .error (.typeError "string")

/-- `luaH_usemetatable` for an object whose metatable id is `mt`: rawget the
field in the metatable and return it when non-nil (one pushed result).  The C
does not check `lua_getmetatable`'s return; dispatch only ever runs on class
handles, which always carry the class metatable, so the caller resolves the
metatable first. -/
def luaH_usemetatable (S : LuaState) (mt : Nat) (field : LuaValue) : Option LuaValue :=
  let v := table_rawget S.tables mt field
  if v = .nil then none else some v

/-- Observable outcome of one `__index`/`__newindex` dispatch.  `propCB` and
`missCB` record that the respective callback was invoked on the given native
handle and how many results it pushed; `zero` is the bare `return 0`; `crash`
marks the NULL-class dereference inside `g_tree_lookup`; `undef` marks the
C-API misuse `luaH_usemetatable` commits when the object has no metatable. -/
inductive Outcome where
  | metaValue (v : LuaValue)
  | propCB (handle : Nat) (count : Nat)
  | missCB (handle : Nat) (count : Nat)
  | zero
  | err (e : LuaErr)
  | crash
  | undef
deriving Repr, DecidableEq

/-- `luaH_class_index`: metatable shortcut, then class resolution, then
property-table resolution (which `luaL_checklstring`s the key *before* the
class pointer is dereferenced), then the index callback / miss handler /
`return 0` ladder of lines 244-253. -/
def luaH_class_index (S : LuaState) (obj field : LuaValue) : Outcome :=
  match lua_getmetatable obj with
  | none => .undef
  | some mt =>
    match luaH_usemetatable S mt field with
    | some v => .metaValue v
    | none =>
      let cls? := luaH_class_get S.classes obj
      match luaL_checklstring field with
      | .error e => .err e
      | .ok attr =>
        match cls? with
        | none => .crash
        | some cls =>
          match cls.properties.lookup attr with
          | some prop =>
            match prop.index with
            | some cb =>
              match luaH_checkudata obj cls with
              | .error e => .err e
              | .ok p => .propCB p (cb p)
            | none => .zero
          | none =>
            match cls.index_miss_property with
            | some cb =>
              match luaH_checkudata obj cls with
              | .error e => .err e
              | .ok p => .missCB p (cb p)
            | none => .zero

/-- `luaH_class_newindex`: same ladder as `luaH_class_index` with the
`newindex` callback and the `newindex` miss handler (lines 260-277). -/
def luaH_class_newindex (S : LuaState) (obj field : LuaValue) : Outcome :=
  match lua_getmetatable obj with
  | none => .undef
  | some mt =>
    match luaH_usemetatable S mt field with
    | some v => .metaValue v
    | none =>
      let cls? := luaH_class_get S.classes obj
      match luaL_checklstring field with
      | .error e => .err e
      | .ok attr =>
        match cls? with
        | none => .crash
        | some cls =>
          match cls.properties.lookup attr with
          | some prop =>
            match prop.newindex with
            | some cb =>
              match luaH_checkudata obj cls with
              | .error e => .err e
              | .ok p => .propCB p (cb p)
            | none => .zero
          | none =>
            match cls.newindex_miss_property with
            | some cb =>
              match luaH_checkudata obj cls with
              | .error e => .err e
              | .ok p => .missCB p (cb p)
            | none => .zero

/-- `lua_isstring` (Lua 5.1): true for strings *and* numbers — the coercion
rule `luaH_class_new` relies on when filtering init-table keys. -/
def lua_isstring : LuaValue → Bool
  | .str _ => true
  | .number _ => true
  | _ => false

/-- The string `lua_tolstring` produces for a value accepted by
`lua_isstring`; for a number this conversion also rewrites the stack slot in
place in the C. -/
def lua_tolstring : LuaValue → String
  | .str s => s
  | .number n => toString n
  | _ => ""

/-- Modelled from the spec: `luaH_checktable` (declared in `luafuncs.h`, whose
definition is not under `src/`) "fails with a type error if it is not a
table-like structure at all"; it accepts exactly a table and raises before
anything else runs. -/
def luaH_checktable : LuaValue → Except LuaErr Nat
  | .table id => .ok id
  | _ => .error (.typeError "table")

/-- Observable events of one run of `luaH_class_new`: the allocator call and
each invocation of a property's construction callback (whose return value the
C discards). -/
inductive NewEvent where
  | alloc (p : Nat)
  | construct (attr : String) (p : Nat)
deriving Repr, DecidableEq

/-- Construction events of one loop body on key `k`: when `lua_isstring`
accepts the key (strings *and* numbers), the `lua_tolstring` image is looked
up in the property tree and a present construction callback is invoked on the
handle. -/
def class_new_step (cls : lua_class) (p : Nat) (k : LuaValue) : List NewEvent :=
  if lua_isstring k then
    match cls.properties.lookup (lua_tolstring k) with
    | some prop =>
      match prop.new with
      | some _ => [NewEvent.construct (lua_tolstring k) p]
      | none => []
    | none => []
  else []

/-- The key slot after the loop body processed key `k`: `lua_tolstring`
rewrites a *numeric* key to its string image in place on the stack; a string
key is returned unchanged and a key `lua_isstring` rejects is never converted
at all. -/
def key_after_body : LuaValue → LuaValue
  | .number n => .str (toString n)
  | k => k

/-- How one run of `luaH_class_new`'s `lua_next` loop ends. -/
inductive LoopEnd where
  /-- The loop ran off the end of the table; the constructor then returns this
  many results (the C's `return 1`). -/
  | completed (nresults : Nat)
  /-- A numeric key was coerced in place to a string that is *not* a key of
  the table, so the following `lua_next` call cannot find the key it was given
  and raises `invalid key to 'next'` (Lua 5.1 `findindex`), aborting the
  construction mid-iteration. -/
  | invalidKeyToNext
  /-- A numeric key was coerced in place to a string that *is* (raw-equal to)
  a key of the table: `lua_next` resumes from that key's position, so entries
  may be skipped or revisited; not modelled beyond this marker. -/
  | keyCollision
deriving Repr, DecidableEq

/-- The `lua_next` loop of `luaH_class_new` (lines 291-309).  `keys` is the
full key list of the init table (a real Lua table's keys are unique, so the
first occurrence of an unchanged key is its own position and iteration
proceeds to the structurally next entry).  After each body, `lua_next` is
called with whatever key the body left on the stack: an in-place-coerced
numeric key either is no longer found (`invalidKeyToNext`) or collides with
an existing string key (`keyCollision`) — the conversion the comment above
the `lua_isstring` check says must not happen. -/
def class_new_loop (cls : lua_class) (p : Nat) (keys : List LuaValue) :
    List (LuaValue × LuaValue) → List NewEvent × LoopEnd
  | [] => ([], .completed 1)
  | (k, _) :: rest =>
    let evs := class_new_step cls p k
    let k2 := key_after_body k
    if k2 = k then
      let r := class_new_loop cls p keys rest
      (evs ++ r.1, r.2)
    else if k2 ∈ keys then
      (evs, .keyCollision)
    else
      (evs, .invalidKeyToNext)

/-- Result of `luaH_class_new` on a table argument: the event trace up to the
point the loop stopped, and how it stopped. -/
structure NewResult where
  events : List NewEvent
  ending : LoopEnd
deriving Repr, DecidableEq

/-- `luaH_class_new`: check the init argument is a table (raising before the
allocator runs), allocate once, then run the `lua_next` loop; only a loop
that completes reaches the `return 1`. -/
def luaH_class_new (S : LuaState) (cls : lua_class) (arg : LuaValue) :
    Except LuaErr NewResult :=
  match luaH_checktable arg with
  | .error e => .error e
  | .ok tid =>
    let p := cls.allocator
    let entries := (S.tables.lookup tid).getD []
    let r := class_new_loop cls p (entries.map Prod.fst) entries
    .ok ⟨NewEvent.alloc p :: r.1, r.2⟩

/-- Modelled from the spec: `luaH_checkfunction` (declared in `luafuncs.h`,
whose definition is not under `src/`) requires the value "to refer to a
callable value" and raises a type error otherwise; it accepts exactly a
function and returns its `lua_topointer` identity. -/
def luaH_checkfunction : LuaValue → Except LuaErr Nat
  | .func f => .ok f
  | _ => .error (.typeError "function")

/-- State the signal entry points mutate: the class's signal table
(name → subscriber references in registration order) and the object registry's
ownership counts (reference pointer → count). -/
structure signal_state where
  signals : List (String × List Nat)
  refcount : List (Nat × Nat)
deriving Repr, DecidableEq

/-- Ownership count of a reference pointer: zero when the registry has no
entry for it. -/
def rc_get (rc : List (Nat × Nat)) (p : Nat) : Nat :=
  (rc.lookup p).getD 0

/-- Store a count for a reference pointer, replacing any existing entry. -/
def rc_set (rc : List (Nat × Nat)) (p n : Nat) : List (Nat × Nat) :=
  match rc with
  | [] => [(p, n)]
  | (q, m) :: rest => if q = p then (p, n) :: rest else (q, m) :: rc_set rest p n

/-- Modelled from the spec: `luaH_object_ref` (in `luaobject.h`, not under
`src/`) takes "one logical ownership increment on registration": the registry
count of the value's identity pointer goes up by one. -/
def luaH_object_ref (rc : List (Nat × Nat)) (p : Nat) : List (Nat × Nat) :=
  rc_set rc p (rc_get rc p + 1)

/-- Modelled from the spec: `luaH_object_unref` (in `luaobject.h`, not under
`src/`) performs "one decrement on removal"; the registry entry is dropped
once the count reaches zero, so a pointer with no entry stays at zero
(truncated subtraction). -/
def luaH_object_unref (rc : List (Nat × Nat)) (p : Nat) : List (Nat × Nat) :=
  rc_set rc p (rc_get rc p - 1)

/-- Modelled from the spec: `signal_add` (in `signal.h`, not under `src/`)
appends the callback reference at the end of the name's subscriber list, so
`emit` later runs callbacks in registration order. -/
def signal_add (sigs : List (String × List Nat)) (name : String) (ref : Nat) :
    List (String × List Nat) :=
  match sigs with
  | [] => [(name, [ref])]
  | (n, rs) :: rest =>
    if n = name then (n, rs ++ [ref]) :: rest
    else (n, rs) :: signal_add rest name ref

/-- Modelled from the spec: `signal_remove` (in `signal.h`, not under `src/`)
"removes the first/matching stored reference by identity" under the name and
is a no-op when the name or the reference is not present. -/
def signal_remove (sigs : List (String × List Nat)) (name : String) (ref : Nat) :
    List (String × List Nat) :=
  match sigs with
  | [] => []
  | (n, rs) :: rest =>
    if n = name then (n, rs.erase ref) :: rest
    else (n, rs) :: signal_remove rest name ref

/-- Subscriber list registered under a name (empty when absent). -/
def sig_get (sigs : List (String × List Nat)) (name : String) : List Nat :=
  (sigs.lookup name).getD []

/-- `luaH_class_add_signal`: `luaH_checkfunction` first (raising before any
mutation), then `signal_add` with the freshly `luaH_object_ref`ed reference. -/
def luaH_class_add_signal (st : signal_state) (name : String) (v : LuaValue) :
    Except LuaErr signal_state :=
  match luaH_checkfunction v with
  | .error e => .error e
  | .ok f => .ok ⟨signal_add st.signals name f, luaH_object_ref st.refcount f⟩

/-- `luaH_class_remove_signal`: `luaH_checkfunction` first, then
`signal_remove` of the `lua_topointer` identity — and an *unconditional*
`luaH_object_unref` of that pointer, whether or not it was registered. -/
def luaH_class_remove_signal (st : signal_state) (name : String) (v : LuaValue) :
    Except LuaErr signal_state :=
  match luaH_checkfunction v with
  | .error e => .error e
  | .ok f => .ok ⟨signal_remove st.signals name f, luaH_object_unref st.refcount f⟩

/-! Concrete fixtures used by witnesses and counterexamples. -/

/-- A concrete property callback: pushes one result. -/
def cbOne : PropCB := fun _ => 1

/-- A concrete class with tag 3 and allocator handle 9: property `x` has all
three callbacks, `ro` only a read callback, `7` only a construction callback;
both miss handlers are set. -/
def cW : lua_class :=
  ⟨"widget", 9,
   [("x", ⟨some cbOne, some cbOne, some cbOne⟩),
    ("ro", ⟨none, some cbOne, none⟩),
    ("12", ⟨none, some cbOne, none⟩),
    ("7", ⟨some cbOne, none, none⟩)],
   some cbOne, some cbOne, 3⟩

/-- A concrete state: table 3 is `cW`'s class metatable (holding a method
`m`); table 1 is an init table whose only key is the *number* 7; table 2 is an
array-style init table (numeric key 1); table 4 is a purely string-keyed init
table. -/
def SW : LuaState :=
  ⟨[(3, [(.str "m", .func 4)]),
    (1, [(.number 7, .boolean true)]),
    (2, [(.number 1, .str "a")]),
    (4, [(.str "x", .boolean true)])], [cW]⟩

/-- A concrete handle of class `cW` (pointer 5, class metatable 3). -/
def objW : LuaValue := .userdata 5 (some 3)

/-- A concrete signal state: one subscriber (reference 5, ownership count 1)
registered under the name `a`. -/
def st7 : signal_state := ⟨[("a", [5])], [(5, 1)]⟩

/-! Helper lemmas. -/

theorem toudata_userdata_mt (p m : Nat) (c : lua_class) :
    luaH_toudata (.userdata p (some m)) c = if p ≠ 0 ∧ m = c.tag then p else 0 := by
  by_cases hp : p = 0 <;> by_cases hm : m = c.tag <;>
    simp [luaH_toudata, lua_touserdata, lua_getmetatable, hp, hm]

theorem class_get_userdata_elim {classes : List lua_class} {p m : Nat} {c : lua_class}
    (h : luaH_class_get classes (.userdata p (some m)) = some c) :
    p ≠ 0 ∧ m = c.tag ∧ luaH_checkudata (.userdata p (some m)) c = .ok p := by
  have h2 : classes.find? (fun cl => luaH_toudata (.userdata p (some m)) cl != 0) = some c := h
  have h3 := List.find?_some h2
  rw [bne_iff_ne, toudata_userdata_mt] at h3
  by_cases hcond : p ≠ 0 ∧ m = c.tag
  · refine ⟨hcond.1, hcond.2, ?_⟩
    simp [luaH_checkudata, toudata_userdata_mt, hcond, hcond.1]
  · rw [if_neg hcond] at h3
    exact absurd rfl h3

theorem checklstring_error_of_not_isstring {field : LuaValue}
    (h : lua_isstring field = false) :
    luaL_checklstring field = .error (.typeError "string") := by
  cases field <;> simp_all [lua_isstring, luaL_checklstring]

theorem class_new_step_no_alloc (cls : lua_class) (p : Nat) (k : LuaValue) :
    ∀ e ∈ class_new_step cls p k, ∀ q, e ≠ NewEvent.alloc q := by
  intro e he q hq
  subst hq
  rw [class_new_step] at he
  split at he
  · split at he
    · split at he
      · simp at he
      · simp at he
    · simp at he
  · simp at he

theorem class_new_loop_cons_events (cls : lua_class) (p : Nat) (keys : List LuaValue)
    (k v : LuaValue) (rest : List (LuaValue × LuaValue)) :
    (class_new_loop cls p keys ((k, v) :: rest)).1 = class_new_step cls p k ++
      (if key_after_body k = k then (class_new_loop cls p keys rest).1 else []) := by
  rw [class_new_loop]
  by_cases h2 : key_after_body k = k
  · simp [h2]
  · by_cases h3 : key_after_body k ∈ keys <;> simp [h2, h3]

theorem class_new_loop_no_alloc (cls : lua_class) (p : Nat) (keys : List LuaValue) :
    ∀ l, ∀ e ∈ (class_new_loop cls p keys l).1, ∀ q, e ≠ NewEvent.alloc q := by
  intro l
  induction l with
  | nil => intro e he; simp [class_new_loop] at he
  | cons kv rest ih =>
    obtain ⟨k, v⟩ := kv
    intro e he q hq
    rw [class_new_loop_cons_events, List.mem_append] at he
    rcases he with he | he
    · exact class_new_step_no_alloc cls p k e he q hq
    · split at he
      · exact ih e he q hq
      · simp at he

theorem class_new_loop_completed (cls : lua_class) (p : Nat) (keys : List LuaValue) :
    ∀ l, (∀ kv ∈ l, ∀ n : Int, kv.1 ≠ .number n) →
      (class_new_loop cls p keys l).2 = .completed 1 := by
  intro l
  induction l with
  | nil => intro _; rfl
  | cons kv rest ih =>
    obtain ⟨k, v⟩ := kv
    intro h
    have hk : ∀ n : Int, k ≠ .number n := fun n => h (k, v) (List.mem_cons_self _ _) n
    have h2 : key_after_body k = k := by
      cases k
      case number n => exact absurd rfl (hk n)
      all_goals rfl
    rw [class_new_loop]
    simp [h2]
    exact ih (fun kv hkv n => h kv (List.mem_cons_of_mem _ hkv) n)

theorem lookup_cons_self {α β : Type} [BEq α] [LawfulBEq α] (k : α) (v : β)
    (rest : List (α × β)) : List.lookup k ((k, v) :: rest) = some v := by
  simp [List.lookup_cons]

theorem lookup_cons_ne {α β : Type} [BEq α] [LawfulBEq α] {k q : α} (v : β)
    (rest : List (α × β)) (h : k ≠ q) :
    List.lookup k ((q, v) :: rest) = List.lookup k rest := by
  simp [List.lookup_cons, beq_false_of_ne h]

theorem rc_get_set_self (rc : List (Nat × Nat)) (p n : Nat) :
    rc_get (rc_set rc p n) p = n := by
  induction rc with
  | nil => simp [rc_set, rc_get, lookup_cons_self]
  | cons qm rest ih =>
    obtain ⟨q, m⟩ := qm
    by_cases h : q = p
    · subst h
      simp [rc_set, rc_get, lookup_cons_self]
    · simp only [rc_set, if_neg h, rc_get] at ih ⊢
      rw [lookup_cons_ne _ _ (fun hpq => h hpq.symm)]
      exact ih

theorem rc_get_set_other (rc : List (Nat × Nat)) (p n g : Nat) (h : g ≠ p) :
    rc_get (rc_set rc p n) g = rc_get rc g := by
  induction rc with
  | nil => simp [rc_set, rc_get, lookup_cons_ne _ _ h]
  | cons qm rest ih =>
    obtain ⟨q, m⟩ := qm
    by_cases hq : q = p
    · subst hq
      simp only [rc_set, if_pos rfl, rc_get, if_true]
      rw [lookup_cons_ne _ _ h, lookup_cons_ne _ _ h]
    · by_cases hg : g = q
      · subst hg
        simp only [rc_set, if_neg hq, rc_get]
        rw [lookup_cons_self, lookup_cons_self]
      · simp only [rc_set, if_neg hq, rc_get] at ih ⊢
        rw [lookup_cons_ne _ _ hg, lookup_cons_ne _ _ hg]
        exact ih

theorem sig_get_signal_add_self (sigs : List (String × List Nat)) (name : String) (f : Nat) :
    sig_get (signal_add sigs name f) name = sig_get sigs name ++ [f] := by
  induction sigs with
  | nil => simp [signal_add, sig_get, lookup_cons_self]
  | cons nr rest ih =>
    obtain ⟨n, rs⟩ := nr
    by_cases h : n = name
    · subst h
      simp [signal_add, sig_get, lookup_cons_self]
    · simp only [signal_add, if_neg h, sig_get] at ih ⊢
      rw [lookup_cons_ne _ _ (fun hq => h hq.symm), lookup_cons_ne _ _ (fun hq => h hq.symm)]
      exact ih

theorem sig_get_signal_add_other (sigs : List (String × List Nat)) (name nm : String)
    (f : Nat) (h : nm ≠ name) :
    sig_get (signal_add sigs name f) nm = sig_get sigs nm := by
  induction sigs with
  | nil => simp [signal_add, sig_get, lookup_cons_ne _ _ h]
  | cons nr rest ih =>
    obtain ⟨n, rs⟩ := nr
    by_cases hn : n = name
    · subst hn
      simp only [signal_add, if_pos rfl, sig_get, if_true]
      rw [lookup_cons_ne _ _ h, lookup_cons_ne _ _ h]
    · by_cases hm : nm = n
      · subst hm
        simp only [signal_add, if_neg hn, sig_get]
        rw [lookup_cons_self, lookup_cons_self]
      · simp only [signal_add, if_neg hn, sig_get] at ih ⊢
        rw [lookup_cons_ne _ _ hm, lookup_cons_ne _ _ hm]
        exact ih

theorem signal_remove_not_mem (sigs : List (String × List Nat)) (name : String) (f : Nat)
    (h : f ∉ sig_get sigs name) : signal_remove sigs name f = sigs := by
  induction sigs with
  | nil => rfl
  | cons nr rest ih =>
    obtain ⟨n, rs⟩ := nr
    by_cases hn : n = name
    · subst hn
      have hf : f ∉ rs := by
        simp only [sig_get, lookup_cons_self] at h
        simpa using h
      simp [signal_remove, List.erase_of_not_mem hf]
    · have hf : f ∉ sig_get rest name := by
        simp only [sig_get] at h ⊢
        rwa [lookup_cons_ne _ _ (fun hq => hn hq.symm)] at h
      simp [signal_remove, hn, ih hf]

/-! Claim theorems. -/

/-- C2: whenever the object's metatable holds a non-nil value for the requested
field, both `luaH_class_index` and `luaH_class_newindex` push exactly that
value (one result) and neither consults the property table nor invokes any
property or miss callback — the outcomes are `metaValue`, never `propCB` or
`missCB`, even for a field name whose property has a write callback. -/
theorem C2_metatable_shortcut (S : LuaState) (p mtid : Nat) (field v : LuaValue)
    (hv : table_rawget S.tables mtid field = v) (hnn : v ≠ .nil) :
    luaH_class_index S (.userdata p (some mtid)) field = .metaValue v
  ∧ luaH_class_newindex S (.userdata p (some mtid)) field = .metaValue v := by
  constructor <;>
    simp [luaH_class_index, luaH_class_newindex, lua_getmetatable,
      luaH_usemetatable, hv, hnn]

/-- C2 witness: in the concrete state `SW`, reading or writing the method field
`m` — whose name is also a stored metatable entry — returns the metatable's
value, even though `cW` has a newindex miss handler. -/
theorem C2_witness :
    luaH_class_index SW objW (.str "m") = .metaValue (.func 4)
  ∧ luaH_class_newindex SW objW (.str "m") = .metaValue (.func 4) :=
  C2_metatable_shortcut SW 5 3 (.str "m") (.func 4) rfl (by decide)

/-- C3 (code bug evaluation): constructing from an init table whose only key
is the *number* 7 — not a string — nevertheless invokes the construction
callback of property `"7"`, because `lua_isstring` accepts numbers and
`lua_tolstring` then coerces the key in place, exactly the conversion the
comment above the check says must not happen ("We cannot call tostring
blindly or Lua will convert a key that is a number TO A STRING, confusing
lua_next()"); the following `lua_next` call is indeed confused and raises
`invalid key to 'next'`. -/
theorem C3_numeric_key_runs_construct_callback :
    luaH_class_new SW cW (.table 1) =
      .ok ⟨[.alloc 9, .construct "7" 9], .invalidKeyToNext⟩ := by
  rfl

/-- C5 counterexample: a metatable-less full userdata is not a handle tagged by
any registered class, yet `luaH_class_get` does not return none on it — the
missing-metatable shortcut in `luaH_toudata` makes the first registered class
claim it. -/
theorem C5_counterexample :
    lua_getmetatable (.userdata 5 none) = none
  ∧ luaH_class_get [cW] (.userdata 5 none) ≠ none := by
  refine ⟨rfl, ?_⟩
  intro h
  exact Option.noConfusion h

/-- C5 (amended): `luaH_class_get` returns none for every value that is not a
full userdata, and for every full userdata whose **existing** metatable matches
no registered class's tag; for a metatable-less userdata it instead yields the
first registered class (see the C10 theorem). -/
theorem C5_classOf_none (classes : List lua_class) (v : LuaValue) :
    ((∀ p mt, v ≠ .userdata p mt) → luaH_class_get classes v = none)
  ∧ (∀ p mtid, v = .userdata p (some mtid) → (∀ c ∈ classes, c.tag ≠ mtid) →
       luaH_class_get classes v = none) := by
  constructor
  · intro h
    cases v
    case userdata p mt => exact absurd rfl (h p mt)
    all_goals rfl
  · rintro p mtid rfl hne
    show classes.find? (fun cl => luaH_toudata (.userdata p (some mtid)) cl != 0) = none
    rw [List.find?_eq_none]
    intro c hc
    simp only [toudata_userdata_mt, bne_iff_ne, ne_eq, Decidable.not_not]
    rw [if_neg]
    rintro ⟨-, hmt⟩
    exact absurd hmt.symm (hne c hc)

/-- C5 witness: a string value and a userdata with an unregistered metatable
both resolve to no class. -/
theorem C5_witness :
    luaH_class_get [cW] (.str "hi") = none
  ∧ luaH_class_get [cW] (.userdata 5 (some 99)) = none := by
  refine ⟨(C5_classOf_none [cW] (.str "hi")).1 (fun p mt h => nomatch h),
          (C5_classOf_none [cW] (.userdata 5 (some 99))).2 5 99 rfl ?_⟩
  intro c hc
  rw [List.mem_singleton] at hc
  subst hc
  decide

/-- C6 counterexample: constructing from the array-style init table
`{ [1] = "a" }` (table 2 of `SW`) allocates, then the loop body coerces the
numeric key 1 in place and the following `lua_next` call raises `invalid key
to 'next'` — the construction aborts mid-iteration instead of returning
exactly one result value, refuting the claim's "the construction returns
exactly one result" for table arguments. -/
theorem C6_counterexample :
    luaH_class_new SW cW (.table 2) = .ok ⟨[.alloc 9], .invalidKeyToNext⟩
  ∧ LoopEnd.invalidKeyToNext ≠ LoopEnd.completed 1 :=
  ⟨rfl, fun h => nomatch h⟩

/-- C6 (amended): `luaH_class_new` raises a type error when its argument is
not a table, with no event at all — in particular the allocator has not run;
on a table it allocates exactly once, as the very first event, whatever the
iteration's fate; but the construction reaches the single `return 1` only
when the loop completes — guaranteed when no key of the init table is a
number — because a numeric key's in-place coercion corrupts the `lua_next`
iteration (type error raised mid-loop, or iteration resumed from a colliding
key's position). -/
theorem C6_construction_protocol (S : LuaState) (cls : lua_class) (arg : LuaValue) :
    ((∀ tid, arg ≠ .table tid) →
       luaH_class_new S cls arg = .error (.typeError "table"))
  ∧ (∀ tid, arg = .table tid →
       ∃ evs endk, luaH_class_new S cls arg = .ok ⟨.alloc cls.allocator :: evs, endk⟩
         ∧ ∀ e ∈ evs, ∀ q, e ≠ NewEvent.alloc q)
  ∧ (∀ tid, arg = .table tid →
       (∀ kv ∈ (S.tables.lookup tid).getD [], ∀ n : Int, kv.1 ≠ .number n) →
       ∃ evs, luaH_class_new S cls arg = .ok ⟨.alloc cls.allocator :: evs, .completed 1⟩) := by
  refine ⟨?_, ?_, ?_⟩
  · intro h
    cases arg
    case table tid => exact absurd rfl (h tid)
    all_goals rfl
  · rintro tid rfl
    exact ⟨(class_new_loop cls cls.allocator (((S.tables.lookup tid).getD []).map Prod.fst)
             ((S.tables.lookup tid).getD [])).1,
           (class_new_loop cls cls.allocator (((S.tables.lookup tid).getD []).map Prod.fst)
             ((S.tables.lookup tid).getD [])).2, rfl,
           fun e he q => class_new_loop_no_alloc cls cls.allocator _ _ e he q⟩
  · rintro tid rfl hkeys
    have hend := class_new_loop_completed cls cls.allocator
      (((S.tables.lookup tid).getD []).map Prod.fst) ((S.tables.lookup tid).getD []) hkeys
    refine ⟨(class_new_loop cls cls.allocator (((S.tables.lookup tid).getD []).map Prod.fst)
             ((S.tables.lookup tid).getD [])).1, ?_⟩
    rw [← hend]
    rfl

/-- C6 witness: a non-table argument fails with the type error; the
numeric-key init table 1 still allocates first (handle 9), exactly once,
before aborting; the string-keyed init table 4 completes and returns one
result. -/
theorem C6_witness :
    luaH_class_new SW cW (.boolean true) = .error (.typeError "table")
  ∧ (∃ evs endk, luaH_class_new SW cW (.table 1) = .ok ⟨.alloc cW.allocator :: evs, endk⟩
       ∧ ∀ e ∈ evs, ∀ q, e ≠ NewEvent.alloc q)
  ∧ (∃ evs, luaH_class_new SW cW (.table 4) =
       .ok ⟨.alloc cW.allocator :: evs, .completed 1⟩) := by
  refine ⟨(C6_construction_protocol SW cW (.boolean true)).1 (fun _tid h => nomatch h),
          (C6_construction_protocol SW cW (.table 1)).2.1 1 rfl,
          (C6_construction_protocol SW cW (.table 4)).2.2 4 rfl ?_⟩
  intro kv hkv n
  rw [show (SW.tables.lookup 4).getD [] = [(.str "x", .boolean true)] from rfl,
    List.mem_singleton] at hkv
  subst hkv
  exact fun h => nomatch h

/-- C10: `luaH_toudata` on a metatable-less full userdata with non-null
pointer returns that pointer for *every* class — the metatable comparison is
skipped — and consequently `luaH_class_get` resolves such a userdata to the
first registered class instead of none. -/
theorem C10_metatableless_userdata (classes : List lua_class) (c₀ : lua_class)
    (p : Nat) (hp : p ≠ 0) :
    (∀ c : lua_class, luaH_toudata (.userdata p none) c = p)
  ∧ luaH_class_get (c₀ :: classes) (.userdata p none) = some c₀ := by
  constructor
  · intro c
    simp [luaH_toudata, lua_touserdata, lua_getmetatable, hp]
  · show (c₀ :: classes).find? (fun cl => luaH_toudata (.userdata p none) cl != 0) = some c₀
    rw [List.find?_cons_of_pos]
    simp [luaH_toudata, lua_touserdata, lua_getmetatable, hp]

/-- C10 witness: with only `cW` registered (tag 3), the metatable-less
userdata with pointer 5 converts to pointer 5 against `cW` and resolves to
`cW`. -/
theorem C10_witness :
    (∀ c : lua_class, luaH_toudata (.userdata 5 none) c = 5)
  ∧ luaH_class_get [cW] (.userdata 5 none) = some cW :=
  C10_metatableless_userdata [] cW 5 (by decide)

/-- C1: on a tagged handle whose string field name is not in the object's
metatable — for both index and newindex dispatch — a property entry with the
relevant callback makes the dispatch invoke that callback on the native handle
and return its pushed-result count; an entry without the relevant callback
returns no value and does not touch the miss handler; no entry delegates to
the class's miss handler when present and otherwise returns no value. -/
theorem C1_dispatch_property_resolution (S : LuaState) (p mtid : Nat)
    (c : lua_class) (s : String)
    (hget : luaH_class_get S.classes (.userdata p (some mtid)) = some c)
    (hmiss : table_rawget S.tables mtid (.str s) = .nil) :
    (∀ prop cb, c.properties.lookup s = some prop → prop.index = some cb →
       luaH_class_index S (.userdata p (some mtid)) (.str s) = .propCB p (cb p))
  ∧ (∀ prop, c.properties.lookup s = some prop → prop.index = none →
       luaH_class_index S (.userdata p (some mtid)) (.str s) = .zero)
  ∧ (∀ cb, c.properties.lookup s = none → c.index_miss_property = some cb →
       luaH_class_index S (.userdata p (some mtid)) (.str s) = .missCB p (cb p))
  ∧ (c.properties.lookup s = none → c.index_miss_property = none →
       luaH_class_index S (.userdata p (some mtid)) (.str s) = .zero)
  ∧ (∀ prop cb, c.properties.lookup s = some prop → prop.newindex = some cb →
       luaH_class_newindex S (.userdata p (some mtid)) (.str s) = .propCB p (cb p))
  ∧ (∀ prop, c.properties.lookup s = some prop → prop.newindex = none →
       luaH_class_newindex S (.userdata p (some mtid)) (.str s) = .zero)
  ∧ (∀ cb, c.properties.lookup s = none → c.newindex_miss_property = some cb →
       luaH_class_newindex S (.userdata p (some mtid)) (.str s) = .missCB p (cb p))
  ∧ (c.properties.lookup s = none → c.newindex_miss_property = none →
       luaH_class_newindex S (.userdata p (some mtid)) (.str s) = .zero) := by
  obtain ⟨hp, htag, hok⟩ := class_get_userdata_elim hget
  refine ⟨?_, ?_, ?_, ?_, ?_, ?_, ?_, ?_⟩
  · intro prop cb hlook hcb
    simp [luaH_class_index, lua_getmetatable, luaH_usemetatable, hmiss, hget,
      luaL_checklstring, hlook, hcb, hok]
  · intro prop hlook hcb
    simp [luaH_class_index, lua_getmetatable, luaH_usemetatable, hmiss, hget,
      luaL_checklstring, hlook, hcb]
  · intro cb hlook hmi
    simp [luaH_class_index, lua_getmetatable, luaH_usemetatable, hmiss, hget,
      luaL_checklstring, hlook, hmi, hok]
  · intro hlook hmi
    simp [luaH_class_index, lua_getmetatable, luaH_usemetatable, hmiss, hget,
      luaL_checklstring, hlook, hmi]
  · intro prop cb hlook hcb
    simp [luaH_class_newindex, lua_getmetatable, luaH_usemetatable, hmiss, hget,
      luaL_checklstring, hlook, hcb, hok]
  · intro prop hlook hcb
    simp [luaH_class_newindex, lua_getmetatable, luaH_usemetatable, hmiss, hget,
      luaL_checklstring, hlook, hcb]
  · intro cb hlook hmi
    simp [luaH_class_newindex, lua_getmetatable, luaH_usemetatable, hmiss, hget,
      luaL_checklstring, hlook, hmi, hok]
  · intro hlook hmi
    simp [luaH_class_newindex, lua_getmetatable, luaH_usemetatable, hmiss, hget,
      luaL_checklstring, hlook, hmi]

/-- C1 witness: in `SW`, reading `x` runs the read callback (one result);
writing the read-only `ro` is the silent `return 0`; reading the unknown
`nope` runs the index miss handler. -/
theorem C1_witness :
    luaH_class_index SW objW (.str "x") = .propCB 5 1
  ∧ luaH_class_newindex SW objW (.str "ro") = .zero
  ∧ luaH_class_index SW objW (.str "nope") = .missCB 5 1 := by
  have h1 := C1_dispatch_property_resolution SW 5 3 cW "x" rfl rfl
  have h2 := C1_dispatch_property_resolution SW 5 3 cW "ro" rfl rfl
  have h3 := C1_dispatch_property_resolution SW 5 3 cW "nope" rfl rfl
  exact ⟨h1.1 ⟨some cbOne, some cbOne, some cbOne⟩ cbOne rfl rfl,
         h2.2.2.2.2.2.1 ⟨none, some cbOne, none⟩ rfl rfl,
         h3.2.2.1 cbOne rfl rfl⟩

/-- C4 counterexample: dispatching on the handle `objW` with the boolean key
`true` — a non-string key, absent from the metatable, while the class *does*
have an index miss handler — raises the `luaL_checklstring` type error instead
of falling through to the miss path, refuting both "never raises" and "always
falls through to the miss path". -/
theorem C4_counterexample :
    luaH_class_index SW objW (.boolean true) = .err (.typeError "string")
  ∧ luaH_class_index SW objW (.boolean true) ≠ .missCB 5 1
  ∧ cW.index_miss_property.isSome = true := by
  refine ⟨rfl, ?_, rfl⟩
  intro h
  exact Outcome.noConfusion h

/-- C4 (amended): in property dispatch a *number* key is coerced to its string
image by `luaL_checklstring` and participates in property resolution under
that name (shown here by it reaching the relevant property callback), while
every key that is neither a string nor a number raises a type error before
property resolution, for index and newindex alike — the miss path is not
taken. -/
theorem C4_nonstring_key_dispatch (S : LuaState) (p mtid : Nat) (c : lua_class)
    (hget : luaH_class_get S.classes (.userdata p (some mtid)) = some c) :
    (∀ n : Int, table_rawget S.tables mtid (.number n) = .nil →
       ∀ prop cb, c.properties.lookup (toString n) = some prop → prop.index = some cb →
         luaH_class_index S (.userdata p (some mtid)) (.number n) = .propCB p (cb p))
  ∧ (∀ n : Int, table_rawget S.tables mtid (.number n) = .nil →
       ∀ prop cb, c.properties.lookup (toString n) = some prop → prop.newindex = some cb →
         luaH_class_newindex S (.userdata p (some mtid)) (.number n) = .propCB p (cb p))
  ∧ (∀ field, lua_isstring field = false →
       table_rawget S.tables mtid field = .nil →
         luaH_class_index S (.userdata p (some mtid)) field = .err (.typeError "string")
       ∧ luaH_class_newindex S (.userdata p (some mtid)) field = .err (.typeError "string")) := by
  obtain ⟨hp, htag, hok⟩ := class_get_userdata_elim hget
  refine ⟨?_, ?_, ?_⟩
  · intro n hmiss prop cb hlook hcb
    simp_all [luaH_class_index, lua_getmetatable, luaH_usemetatable, luaL_checklstring]
  · intro n hmiss prop cb hlook hcb
    simp_all [luaH_class_newindex, lua_getmetatable, luaH_usemetatable, luaL_checklstring]
  · intro field hfield hmiss
    have herr := checklstring_error_of_not_isstring hfield
    constructor <;>
      simp_all [luaH_class_index, luaH_class_newindex, lua_getmetatable, luaH_usemetatable]

/-- C4 witness: the numeric key 7 is coerced to `"7"` — but property `"7"` has
no index callback, so a read via the *string* `"7"` and via the *number* 7 are
both the silent `return 0` (the coercion is visible in the C3 evaluation);
writing with a boolean key raises the type error. -/
theorem C4_witness :
    luaH_class_index SW objW (.number 12) = .propCB 5 1
  ∧ luaH_class_newindex SW objW (.boolean false) = .err (.typeError "string") := by
  have h := C4_nonstring_key_dispatch SW 5 3 cW rfl
  exact ⟨h.1 12 rfl ⟨none, some cbOne, none⟩ cbOne rfl rfl, (h.2.2 (.boolean false) rfl rfl).2⟩

/-- C9: when the first dispatch argument is a non-null full userdata tagged
with the metatable some registered class registered for itself, class
resolution yields a class (not none) and neither dispatch can reach the
NULL-class dereference (`crash`) or the metatable-less undefined path
(`undef`), whatever the field. -/
theorem C9_dispatch_no_fault (S : LuaState) (p m : Nat) (c : lua_class)
    (hp : p ≠ 0) (hc : c ∈ S.classes) (htag : c.tag = m) :
    (luaH_class_get S.classes (.userdata p (some m))).isSome = true
  ∧ ∀ field,
      luaH_class_index S (.userdata p (some m)) field ≠ .crash
    ∧ luaH_class_index S (.userdata p (some m)) field ≠ .undef
    ∧ luaH_class_newindex S (.userdata p (some m)) field ≠ .crash
    ∧ luaH_class_newindex S (.userdata p (some m)) field ≠ .undef := by
  have hsome : (luaH_class_get S.classes (.userdata p (some m))).isSome = true := by
    show (S.classes.find? (fun cl => luaH_toudata (.userdata p (some m)) cl != 0)).isSome = true
    rw [List.find?_isSome]
    refine ⟨c, hc, ?_⟩
    rw [bne_iff_ne, toudata_userdata_mt]
    simp [hp, htag.symm]
  refine ⟨hsome, ?_⟩
  intro field
  obtain ⟨c', hc'⟩ := Option.isSome_iff_exists.mp hsome
  obtain ⟨-, -, hok⟩ := class_get_userdata_elim hc'
  simp only [luaH_class_index, luaH_class_newindex, lua_getmetatable, hc']
  cases husm : luaH_usemetatable S m field with
  | some v => simp
  | none =>
    cases hstr : luaL_checklstring field with
    | error e => simp
    | ok attr =>
      simp only []
      cases hlook : c'.properties.lookup attr with
      | some prop =>
        cases hidx : prop.index with
        | some cb =>
          cases hnidx : prop.newindex with
          | some cb2 => simp [hidx, hnidx, hok]
          | none => simp [hidx, hnidx, hok]
        | none =>
          cases hnidx : prop.newindex with
          | some cb2 => simp [hidx, hnidx, hok]
          | none => simp [hidx, hnidx]
      | none =>
        cases hmi : c'.index_miss_property with
        | some cb =>
          cases hmn : c'.newindex_miss_property with
          | some cb2 => simp [hmi, hmn, hok]
          | none => simp [hmi, hmn, hok]
        | none =>
          cases hmn : c'.newindex_miss_property with
          | some cb2 => simp [hmi, hmn, hok]
          | none => simp [hmi, hmn]

/-- C9 witness: on the concrete handle `objW` the class resolves and a
dispatch with a boolean field (which errors) still cannot crash. -/
theorem C9_witness :
    (luaH_class_get SW.classes objW).isSome = true
  ∧ luaH_class_index SW objW (.boolean true) ≠ .crash
  ∧ luaH_class_index SW objW (.boolean true) ≠ .undef := by
  have h := C9_dispatch_no_fault SW 5 3 cW (by decide) (List.mem_singleton.mpr rfl) rfl
  exact ⟨h.1, (h.2 (.boolean true)).1, (h.2 (.boolean true)).2.1⟩

/-- C7 counterexample: with reference 5 registered only under the signal name
`a` (ownership count 1), removing under the *unregistered* name `b` raises no
error and leaves the signal table unchanged — but the ownership count of
reference 5 drops from 1 to 0, because `luaH_class_remove_signal` unrefs
unconditionally; the claim says the count stays unchanged. -/
theorem C7_counterexample :
    luaH_class_remove_signal st7 "b" (.func 5) = .ok ⟨[("a", [5])], [(5, 0)]⟩
  ∧ sig_get st7.signals "b" = []
  ∧ rc_get st7.refcount 5 = 1
  ∧ rc_get [(5, 0)] 5 ≠ rc_get st7.refcount 5 := by
  refine ⟨rfl, rfl, rfl, ?_⟩
  decide

/-- C7 (amended): removing a signal given a function value never raises and
leaves the signal table unchanged when the (name, reference) pair was not
registered, but it *unconditionally* releases one ownership increment of the
reference (truncated at zero); when the reference was just added under the
name, removal releases exactly that one increment, so add-then-remove restores
the pre-add ownership count. -/
theorem C7_remove_signal (st : signal_state) (name : String) (f : Nat) :
    (∃ st2, luaH_class_remove_signal st name (.func f) = .ok st2
       ∧ st2.signals = signal_remove st.signals name f
       ∧ rc_get st2.refcount f = rc_get st.refcount f - 1)
  ∧ (f ∉ sig_get st.signals name → signal_remove st.signals name f = st.signals)
  ∧ (∀ st1, luaH_class_add_signal st name (.func f) = .ok st1 →
       ∃ st2, luaH_class_remove_signal st1 name (.func f) = .ok st2
         ∧ rc_get st2.refcount f = rc_get st.refcount f) := by
  refine ⟨⟨⟨signal_remove st.signals name f, luaH_object_unref st.refcount f⟩,
           rfl, rfl, rc_get_set_self _ _ _⟩,
          fun h => signal_remove_not_mem _ _ _ h, ?_⟩
  intro st1 h1
  have h1' : st1 = ⟨signal_add st.signals name f, luaH_object_ref st.refcount f⟩ := by
    simpa [luaH_class_add_signal, luaH_checkfunction] using h1.symm
  subst h1'
  refine ⟨_, rfl, ?_⟩
  show rc_get (luaH_object_unref (luaH_object_ref st.refcount f) f) f = rc_get st.refcount f
  rw [luaH_object_unref, rc_get_set_self, luaH_object_ref, rc_get_set_self]
  omega

/-- C7 witness: at the concrete state `st7`, removal under `b` succeeds and
decrements, the unregistered-name removal leaves the signal table unchanged,
and add-then-remove under `b` restores reference 5's pre-add count. -/
theorem C7_witness :
    (∃ st2, luaH_class_remove_signal st7 "b" (.func 5) = .ok st2
       ∧ st2.signals = signal_remove st7.signals "b" 5
       ∧ rc_get st2.refcount 5 = rc_get st7.refcount 5 - 1)
  ∧ signal_remove st7.signals "b" 5 = st7.signals
  ∧ ∃ st2, luaH_class_remove_signal
        ⟨signal_add st7.signals "b" 5, luaH_object_ref st7.refcount 5⟩ "b" (.func 5) = .ok st2
       ∧ rc_get st2.refcount 5 = rc_get st7.refcount 5 := by
  have h := C7_remove_signal st7 "b" 5
  exact ⟨h.1, h.2.1 (by decide), h.2.2 _ rfl⟩

/-- C8: adding a signal with a non-function value raises a type error with no
state mutation (an error is returned instead of any new state); with a
function, exactly one ownership reference is taken on it — its count rises by
one, every other count is untouched — and the reference is appended under the
given name, other names untouched. -/
theorem C8_add_signal (st : signal_state) (name : String) (v : LuaValue) :
    ((∀ f, v ≠ .func f) →
       luaH_class_add_signal st name v = .error (.typeError "function"))
  ∧ (∀ f, v = .func f →
       ∃ st1, luaH_class_add_signal st name v = .ok st1
         ∧ sig_get st1.signals name = sig_get st.signals name ++ [f]
         ∧ (∀ nm, nm ≠ name → sig_get st1.signals nm = sig_get st.signals nm)
         ∧ rc_get st1.refcount f = rc_get st.refcount f + 1
         ∧ ∀ g, g ≠ f → rc_get st1.refcount g = rc_get st.refcount g) := by
  constructor
  · intro h
    cases v
    case func f => exact absurd rfl (h f)
    all_goals rfl
  · rintro f rfl
    refine ⟨⟨signal_add st.signals name f, luaH_object_ref st.refcount f⟩, rfl,
      sig_get_signal_add_self _ _ _,
      fun nm h => sig_get_signal_add_other _ _ _ _ h,
      by rw [luaH_object_ref, rc_get_set_self],
      fun g h => by rw [luaH_object_ref, rc_get_set_other _ _ _ _ h]⟩

/-- C8 witness: from the empty signal state, adding a string errors; adding
function 5 under `a` stores it there with ownership count 1. -/
theorem C8_witness :
    luaH_class_add_signal ⟨[], []⟩ "a" (.str "x") = .error (.typeError "function")
  ∧ ∃ st1, luaH_class_add_signal ⟨[], []⟩ "a" (.func 5) = .ok st1
      ∧ sig_get st1.signals "a" = [5]
      ∧ rc_get st1.refcount 5 = 1 := by
  obtain ⟨st1, ha, hs, -, hr, -⟩ := (C8_add_signal ⟨[], []⟩ "a" (.func 5)).2 5 rfl
  exact ⟨(C8_add_signal ⟨[], []⟩ "a" (.str "x")).1 (fun f hf => nomatch hf),
         st1, ha, by simpa using hs, by simpa using hr⟩

end Luakit
